import Mathlib

/-!
Verification development for the MatMul-Free Streaming Neuron repository.

The repository ships a cocotb testbench (src/test/test.py) and a figure
script (src/docs/manim_figures.py); the hardware unit itself
(tt_um_matmul_free) is an external DUT driven by the testbench, so its
behavioral model is taken from the specification.  The testbench helpers
to_signed_8 and drive_mac_cycle are embedded directly from
src/test/test.py, and the saturation formula of the figure script from
src/docs/manim_figures.py.
-/

/-- Modelled from the spec: the per-cycle input bundle of the missing
hardware unit (spec section 6): an 8-bit signed activation, a 2-bit
weight code in {0,1,2,3}, a valid strobe and a clear strobe. -/
structure MacInput where
  activation : Int
  weight_code : Nat
  valid : Bool
  clear : Bool

/-- Modelled from the spec: spec section 4.1 gives the accumulator
"signed, 16-bit wraparound/overflow semantics" and says the add/subtract
is performed at 16-bit signed width; wrap16 reduces an integer to the
signed 16-bit range [-32768, 32767] by two's-complement wraparound. -/
def wrap16 (x : Int) : Int := (x + 32768) % 65536 - 32768

namespace StreamingTernaryMAC

/-- Modelled from the spec: the transition function of the missing
hardware unit (spec section 4.1, operation step): clear dominates and
zeroes the accumulator; else, when valid is asserted, weight code 1 adds
the activation, weight code 2 subtracts it, and codes 0 and 3 leave the
accumulator unchanged; else the accumulator is unchanged.  The
add/subtract is performed at 16-bit signed width. -/
def step (acc : Int) (inp : MacInput) : Int :=
  if inp.clear then 0
  else if inp.valid then
    if inp.weight_code = 1 then wrap16 (acc + inp.activation)
    else if inp.weight_code = 2 then wrap16 (acc - inp.activation)
    else acc
  else acc

/-- Modelled from the spec: the output derivation of spec section 4.1
step 4: output = max(-128, min(127, accumulator)), recomputed every
cycle from the post-update accumulator; the output is never stored. -/
def output (acc : Int) : Int := max (-128) (min 127 acc)

/-- The accumulator value after running a whole input sequence. -/
def run (acc : Int) (l : List MacInput) : Int := l.foldl step acc

/-- The sequence of post-update accumulator values, one per cycle. -/
def accTrace (acc : Int) : List MacInput → List Int
  | [] => []
  | i :: rest => step acc i :: accTrace (step acc i) rest

/-- The sequence of per-cycle outputs: the clamp of each post-update
accumulator value. -/
def outTrace (acc : Int) (l : List MacInput) : List Int :=
  (accTrace acc l).map output

end StreamingTernaryMAC

/-- The reference ("golden") accumulator update of the end-to-end stress
oracle: an unconstrained-width running sum that skips cycles with valid
deasserted or a no-op weight code.  From the python_acc golden model of
src/test/test.py lines 114-119 (the test drives valid=1 throughout),
generalized with valid-gating exactly as the spec's stress-oracle
sentence states. -/
def refStep (acc : Int) (inp : MacInput) : Int :=
  if inp.valid then
    if inp.weight_code = 1 then acc + inp.activation
    else if inp.weight_code = 2 then acc - inp.activation
    else acc
  else acc

/-- The reference accumulator value after each cycle, unconstrained
width. -/
def refAccTrace (acc : Int) : List MacInput → List Int
  | [] => []
  | i :: rest => refStep acc i :: refAccTrace (refStep acc i) rest

/-- The reference accumulator after a whole input sequence. -/
def refRun (acc : Int) (l : List MacInput) : Int := l.foldl refStep acc

/-- to_signed_8 from src/test/test.py lines 22-27.  The Python body first
reassigns val = val & 0xFF; bitwise-and of any Python integer with 0xFF
equals reduction mod 256 (Python integers are infinite two's complement),
written here as val % 256, inlined into both branches. -/
def to_signed_8 (val : Int) : Int :=
  if val % 256 ≥ 128 then val % 256 - 256 else val % 256

/-- act_unsigned from drive_mac_cycle, src/test/test.py line 44:
activation & 0xFF, the unsigned 8-bit bus encoding of the activation;
Python bitwise-and with 0xFF equals reduction mod 256. -/
def act_unsigned (activation : Int) : Int := activation % 256

/-- uio_val from drive_mac_cycle, src/test/test.py line 47:
(valid << 2) | (weight_code & 0x03); bit 3 (clear) is never set by this
helper.  Python weight_code & 0x03 equals weight_code mod 4. -/
def uio_val (valid : Nat) (weight_code : Nat) : Nat :=
  (valid <<< 2) ||| (weight_code % 4)

/-- expected from src/test/test.py line 122 (also lines 175 and 204):
the testbench's expected saturated 8-bit output for a given golden
accumulator value. -/
def expected (python_acc : Int) : Int := max (-128) (min 127 python_acc)

/-- out_val from src/docs/manim_figures.py line 247: the figure script's
saturated output for a given accumulator value. -/
def out_val (acc_val : Int) : Int := max (-128) (min 127 acc_val)

/-- A value already in the signed 16-bit range is unchanged by 16-bit
wraparound. -/
theorem wrap16_eq_self {x : Int} (h1 : -32768 ≤ x) (h2 : x ≤ 32767) :
    wrap16 x = x := by
  unfold wrap16
  omega

/-- On a non-clear cycle whose reference result stays inside the 16-bit
range, the unit's step agrees with the unconstrained reference step. -/
theorem step_eq_refStep {acc : Int} {i : MacInput} (hc : i.clear = false)
    (h1 : -32768 ≤ refStep acc i) (h2 : refStep acc i ≤ 32767) :
    StreamingTernaryMAC.step acc i = refStep acc i := by
  unfold StreamingTernaryMAC.step
  unfold refStep at h1 h2 ⊢
  rw [hc]
  simp only [Bool.false_eq_true, if_false]
  split_ifs at h1 h2 ⊢ with hv hw1 hw2
  · exact wrap16_eq_self h1 h2
  · exact wrap16_eq_self h1 h2
  · rfl
  · rfl

/-- Over a clear-free input sequence whose reference accumulator stays
inside the 16-bit range at every step, the unit's accumulator trace
equals the reference accumulator trace. -/
theorem accTrace_eq_refAccTrace (l : List MacInput) : ∀ acc : Int,
    (∀ i ∈ l, i.clear = false) →
    (∀ x ∈ refAccTrace acc l, -32768 ≤ x ∧ x ≤ 32767) →
    StreamingTernaryMAC.accTrace acc l = refAccTrace acc l := by
  induction l with
  | nil => intro acc _ _; rfl
  | cons i t ih =>
    intro acc hc hr
    have hci : i.clear = false := hc i (List.mem_cons_self i t)
    have hri : -32768 ≤ refStep acc i ∧ refStep acc i ≤ 32767 :=
      hr (refStep acc i) (by simp [refAccTrace])
    have hstep : StreamingTernaryMAC.step acc i = refStep acc i :=
      step_eq_refStep hci hri.1 hri.2
    show StreamingTernaryMAC.step acc i ::
        StreamingTernaryMAC.accTrace (StreamingTernaryMAC.step acc i) t =
      refStep acc i :: refAccTrace (refStep acc i) t
    rw [hstep]
    have ht := ih (refStep acc i)
      (fun j hj => hc j (List.mem_cons_of_mem i hj))
      (fun x hx => hr x (by simp [refAccTrace]; right; exact hx))
    rw [ht]

/-- Claim C1 (amended): over any finite clear-free input sequence started
from the cleared accumulator, provided the reference accumulator stays
within the signed 16-bit range [-32768, 32767] at every step, the unit's
internal accumulator equals the unconstrained-width reference accumulator
at every step, and the unit's output at every step equals that reference
value clamped to [-128, 127]. -/
theorem claim_C1 (l : List MacInput)
    (hclear : ∀ i ∈ l, i.clear = false)
    (hrange : ∀ x ∈ refAccTrace 0 l, -32768 ≤ x ∧ x ≤ 32767) :
    StreamingTernaryMAC.accTrace 0 l = refAccTrace 0 l ∧
    StreamingTernaryMAC.outTrace 0 l =
      (refAccTrace 0 l).map StreamingTernaryMAC.output := by
  have h := accTrace_eq_refAccTrace l 0 hclear hrange
  refine ⟨h, ?_⟩
  unfold StreamingTernaryMAC.outTrace
  rw [h]

/-- Witness for claim C1 at a concrete one-cycle sequence. -/
theorem claim_C1_witness :
    StreamingTernaryMAC.accTrace 0 [⟨127, 1, true, false⟩] =
      refAccTrace 0 [⟨127, 1, true, false⟩] ∧
    StreamingTernaryMAC.outTrace 0 [⟨127, 1, true, false⟩] =
      (refAccTrace 0 [⟨127, 1, true, false⟩]).map StreamingTernaryMAC.output :=
  claim_C1 [⟨127, 1, true, false⟩] (by decide) (by decide)

set_option maxRecDepth 40000 in
/-- Claim C1 as frozen is false on the 16-bit model: 259 clear-free
cycles of activation 127, weight code 1, valid asserted drive the
unconstrained reference accumulator to 32893, past the 16-bit range,
where the unit's accumulator wraps to -32643, so the two traces differ. -/
theorem claim_C1_counterexample :
    (∀ i ∈ List.replicate 259 (⟨127, 1, true, false⟩ : MacInput),
      i.clear = false) ∧
    StreamingTernaryMAC.accTrace 0
        (List.replicate 259 (⟨127, 1, true, false⟩ : MacInput)) ≠
      refAccTrace 0 (List.replicate 259 (⟨127, 1, true, false⟩ : MacInput)) := by
  constructor
  · decide
  · decide

/-- Claim C2 (amended): on a cycle with clear false and valid true, for
every activation in [-128, 127] and every starting accumulator value,
weight code 1 yields old + activation and weight code 2 yields
old - activation, provided the resulting sum (respectively difference)
lies within the signed 16-bit accumulator range [-32768, 32767]. -/
theorem claim_C2 (acc act : Int) (_ha1 : -128 ≤ act) (_ha2 : act ≤ 127) :
    (-32768 ≤ acc + act → acc + act ≤ 32767 →
      StreamingTernaryMAC.step acc ⟨act, 1, true, false⟩ = acc + act) ∧
    (-32768 ≤ acc - act → acc - act ≤ 32767 →
      StreamingTernaryMAC.step acc ⟨act, 2, true, false⟩ = acc - act) := by
  constructor
  · intro h1 h2
    show wrap16 (acc + act) = acc + act
    exact wrap16_eq_self h1 h2
  · intro h1 h2
    show wrap16 (acc - act) = acc - act
    exact wrap16_eq_self h1 h2

/-- Witness for claim C2 at accumulator 100 and activation 50. -/
theorem claim_C2_witness :
    StreamingTernaryMAC.step 100 ⟨50, 1, true, false⟩ = 100 + 50 ∧
    StreamingTernaryMAC.step 100 ⟨50, 2, true, false⟩ = 100 - 50 := by
  have h := claim_C2 100 50 (by decide) (by decide)
  exact ⟨h.1 (by decide) (by decide), h.2 (by decide) (by decide)⟩

/-- Claim C2 as frozen is false at the edge of the 16-bit accumulator:
from accumulator 32767 an add of activation 127 wraps to -32642 instead
of producing 32767 + 127 = 32894. -/
theorem claim_C2_counterexample :
    StreamingTernaryMAC.step 32767 ⟨127, 1, true, false⟩ ≠ 32767 + 127 := by
  decide

/-- Claim C3: the per-cycle output is exactly max(-128, min(127, a))
computed from the post-update accumulator of that cycle; the clamp
coincides with the testbench's expected and the figure script's out_val,
and it is recomputed fresh from the unclamped accumulator alone, so an
accumulator value back inside [-128, 127] is reported un-clamped again. -/
theorem claim_C3 (acc : Int) (i : MacInput) :
    StreamingTernaryMAC.output (StreamingTernaryMAC.step acc i) =
      max (-128) (min 127 (StreamingTernaryMAC.step acc i)) ∧
    (∀ a : Int, StreamingTernaryMAC.output a = expected a ∧
      StreamingTernaryMAC.output a = out_val a) ∧
    (∀ a : Int, -128 ≤ a → a ≤ 127 → StreamingTernaryMAC.output a = a) := by
  refine ⟨rfl, fun a => ⟨rfl, rfl⟩, fun a h1 h2 => ?_⟩
  unfold StreamingTernaryMAC.output
  omega

/-- Witness for claim C3 at a concrete cycle and at the in-range
accumulator value 100. -/
theorem claim_C3_witness :
    StreamingTernaryMAC.output (StreamingTernaryMAC.step 0 ⟨5, 1, true, false⟩) =
      max (-128) (min 127 (StreamingTernaryMAC.step 0 ⟨5, 1, true, false⟩)) ∧
    StreamingTernaryMAC.output 100 = 100 := by
  have h := claim_C3 0 ⟨5, 1, true, false⟩
  exact ⟨h.1, h.2.2 100 (by decide) (by decide)⟩

/-- Claim C4: whenever clear is asserted, the step sets the accumulator
to 0 and the output after the step is 0, regardless of valid, activation
and weight code. -/
theorem claim_C4 (acc : Int) (i : MacInput) (h : i.clear = true) :
    StreamingTernaryMAC.step acc i = 0 ∧
    StreamingTernaryMAC.output (StreamingTernaryMAC.step acc i) = 0 := by
  have h0 : StreamingTernaryMAC.step acc i = 0 := by
    unfold StreamingTernaryMAC.step
    rw [h]
    simp
  rw [h0]
  exact ⟨rfl, by decide⟩

/-- Witness for claim C4 at accumulator 77 with clear asserted together
with valid, a nonzero activation and weight code 2. -/
theorem claim_C4_witness :
    StreamingTernaryMAC.step 77 ⟨5, 2, true, true⟩ = 0 ∧
    StreamingTernaryMAC.output (StreamingTernaryMAC.step 77 ⟨5, 2, true, true⟩) = 0 :=
  claim_C4 77 ⟨5, 2, true, true⟩ (by decide)

/-- Claim C5: on a non-clear cycle the accumulator is unchanged whenever
valid is deasserted or the weight code is 0 or 3, and weight codes 0 and
3 behave identically as no-ops for every activation and valid. -/
theorem claim_C5 (acc : Int) (i : MacInput) (hc : i.clear = false) :
    (i.valid = false ∨ i.weight_code = 0 ∨ i.weight_code = 3 →
      StreamingTernaryMAC.step acc i = acc) ∧
    (∀ act : Int, ∀ v : Bool,
      StreamingTernaryMAC.step acc ⟨act, 0, v, false⟩ =
        StreamingTernaryMAC.step acc ⟨act, 3, v, false⟩) := by
  constructor
  · intro h
    unfold StreamingTernaryMAC.step
    rw [hc]
    simp only [Bool.false_eq_true, if_false]
    rcases h with hv | hw | hw
    · rw [hv]
      simp
    · rw [hw]
      simp
    · rw [hw]
      simp
  · intro act v
    cases v <;> rfl

/-- Witness for claim C5 at accumulator 42: valid deasserted, weight
codes 0 and 3, and the identical behavior of codes 0 and 3. -/
theorem claim_C5_witness :
    StreamingTernaryMAC.step 42 ⟨100, 1, false, false⟩ = 42 ∧
    StreamingTernaryMAC.step 42 ⟨100, 0, true, false⟩ = 42 ∧
    StreamingTernaryMAC.step 42 ⟨100, 3, true, false⟩ = 42 ∧
    StreamingTernaryMAC.step 42 ⟨100, 0, true, false⟩ =
      StreamingTernaryMAC.step 42 ⟨100, 3, true, false⟩ := by
  have h1 := claim_C5 42 ⟨100, 1, false, false⟩ (by decide)
  have h2 := claim_C5 42 ⟨100, 0, true, false⟩ (by decide)
  have h3 := claim_C5 42 ⟨100, 3, true, false⟩ (by decide)
  exact ⟨h1.1 (Or.inl (by decide)), h2.1 (Or.inr (Or.inl (by decide))),
    h3.1 (Or.inr (Or.inr (by decide))), h2.2 100 true⟩

/-- Claim C6: from a cleared state, five cycles of activation 127, weight
code 1, valid asserted yield the accumulator trace 127, 254, 381, 508,
635 with output 127 after every one of those cycles; symmetrically five
cycles with weight code 2 yield the trace -127, -254, -381, -508, -635
with output clamped at -128 once the accumulator is below -128, ending at
accumulator -635 and output -128. -/
theorem claim_C6 :
    StreamingTernaryMAC.accTrace 0
        (List.replicate 5 (⟨127, 1, true, false⟩ : MacInput)) =
      [127, 254, 381, 508, 635] ∧
    StreamingTernaryMAC.outTrace 0
        (List.replicate 5 (⟨127, 1, true, false⟩ : MacInput)) =
      [127, 127, 127, 127, 127] ∧
    StreamingTernaryMAC.accTrace 0
        (List.replicate 5 (⟨127, 2, true, false⟩ : MacInput)) =
      [-127, -254, -381, -508, -635] ∧
    StreamingTernaryMAC.outTrace 0
        (List.replicate 5 (⟨127, 2, true, false⟩ : MacInput)) =
      [-127, -128, -128, -128, -128] := by
  decide

/-- With a boolean-valued valid strobe (0 or 1), the control word built
by drive_mac_cycle equals 4 * valid + weight_code % 4: the shifted valid
bit and the masked weight code occupy disjoint bit positions. -/
theorem uio_val_eq (valid weight_code : Nat) (hv : valid ≤ 1) :
    uio_val valid weight_code = 4 * valid + weight_code % 4 := by
  unfold uio_val
  have h4 : weight_code % 4 = 0 ∨ weight_code % 4 = 1 ∨ weight_code % 4 = 2 ∨
      weight_code % 4 = 3 := by omega
  interval_cases valid <;> rcases h4 with h4 | h4 | h4 | h4 <;> rw [h4] <;> decide

/-- Claim C7 (amended): drive_mac_cycle coerces every call into range
before it can reach the DUT's accumulator: the activation is reduced mod
256 and reinterpreted as a signed 8-bit value in [-128, 127] congruent to
the original mod 256, and the weight code is reduced mod 4 into
{0,1,2,3}; the coercion is a two's-complement wrap of the out-of-range
input, not a clamp and not a rejection. -/
theorem claim_C7 (activation : Int) (weight_code valid : Nat)
    (hv : valid ≤ 1) :
    -128 ≤ to_signed_8 (act_unsigned activation) ∧
    to_signed_8 (act_unsigned activation) ≤ 127 ∧
    to_signed_8 (act_unsigned activation) % 256 = activation % 256 ∧
    uio_val valid weight_code % 4 = weight_code % 4 ∧
    weight_code % 4 < 4 := by
  have hu := uio_val_eq valid weight_code hv
  refine ⟨?_, ?_, ?_, by rw [hu]; omega, by omega⟩ <;>
    unfold to_signed_8 act_unsigned <;> split_ifs <;> omega

/-- Witness for claim C7 at the out-of-range activation 200, weight code
7 and valid asserted. -/
theorem claim_C7_witness :
    -128 ≤ to_signed_8 (act_unsigned 200) ∧
    to_signed_8 (act_unsigned 200) ≤ 127 ∧
    to_signed_8 (act_unsigned 200) % 256 = 200 % 256 ∧
    uio_val 1 7 % 4 = 7 % 4 ∧ (7 : Nat) % 4 < 4 :=
  claim_C7 200 7 1 (by decide)

/-- Claim C7 as frozen is false on the testbench helper: the out-of-range
activation 200 is neither rejected (the helper is a total function that
always drives the bus) nor clamped to 127; it is driven as the wrapped
value -56. -/
theorem claim_C7_counterexample :
    to_signed_8 (act_unsigned 200) = -56 ∧
    max (-128) (min 127 (200 : Int)) = 127 ∧
    to_signed_8 (act_unsigned 200) ≠ max (-128) (min 127 (200 : Int)) := by
  decide

/-- The accumulator trace over an appended input sequence splits at the
accumulator value reached after the first part: the unit's future
behavior is a function of the current accumulator alone. -/
theorem accTrace_append (l1 : List MacInput) : ∀ (a : Int) (l2 : List MacInput),
    StreamingTernaryMAC.accTrace a (l1 ++ l2) =
      StreamingTernaryMAC.accTrace a l1 ++
        StreamingTernaryMAC.accTrace (StreamingTernaryMAC.run a l1) l2 := by
  induction l1 with
  | nil => intro a l2; rfl
  | cons i t ih =>
    intro a l2
    show StreamingTernaryMAC.step a i ::
        StreamingTernaryMAC.accTrace (StreamingTernaryMAC.step a i) (t ++ l2) =
      StreamingTernaryMAC.step a i ::
        (StreamingTernaryMAC.accTrace (StreamingTernaryMAC.step a i) t ++
          StreamingTernaryMAC.accTrace
            (StreamingTernaryMAC.run (StreamingTernaryMAC.step a i) t) l2)
    rw [ih]

/-- Claim C8: the unit is a deterministic function of the initial
accumulator and the input sequence with no hidden state beyond the
accumulator: both the accumulator trace and the output trace over any
continued run factor through the single accumulator value reached, so two
runs agreeing on the initial accumulator and the inputs agree on every
cycle's accumulator and output. -/
theorem claim_C8 (a : Int) (l1 l2 : List MacInput) :
    StreamingTernaryMAC.accTrace a (l1 ++ l2) =
      StreamingTernaryMAC.accTrace a l1 ++
        StreamingTernaryMAC.accTrace (StreamingTernaryMAC.run a l1) l2 ∧
    StreamingTernaryMAC.outTrace a (l1 ++ l2) =
      StreamingTernaryMAC.outTrace a l1 ++
        StreamingTernaryMAC.outTrace (StreamingTernaryMAC.run a l1) l2 := by
  refine ⟨accTrace_append l1 a l2, ?_⟩
  unfold StreamingTernaryMAC.outTrace
  rw [accTrace_append l1 a l2, List.map_append]

/-- Claim C9: to_signed_8 always lands in [-128, 127] and is congruent to
its argument mod 256, and for a signed 8-bit value the unsigned bus
encoding used by drive_mac_cycle round-trips exactly. -/
theorem claim_C9 (v : Int) :
    (-128 ≤ to_signed_8 v ∧ to_signed_8 v ≤ 127 ∧
      to_signed_8 v % 256 = v % 256) ∧
    (∀ x : Int, -128 ≤ x → x ≤ 127 → to_signed_8 (act_unsigned x) = x) := by
  constructor
  · unfold to_signed_8
    split_ifs <;> refine ⟨by omega, by omega, by omega⟩
  · intro x h1 h2
    unfold to_signed_8 act_unsigned
    split_ifs <;> omega

/-- Witness for claim C9 at the value 300 and the round-trip of -5. -/
theorem claim_C9_witness :
    (-128 ≤ to_signed_8 300 ∧ to_signed_8 300 ≤ 127 ∧
      to_signed_8 300 % 256 = 300 % 256) ∧
    to_signed_8 (act_unsigned (-5)) = -5 := by
  have h := claim_C9 300
  exact ⟨h.1, h.2 (-5) (by decide) (by decide)⟩

/-- Claim C10: with a boolean-valued valid strobe, the control word built
by drive_mac_cycle is (valid shifted left 2) or-ed with the weight code
masked to its low two bits, so any weight code is silently reduced mod 4,
and bit 3 (clear) of the control word is always 0: the helper can never
assert clear. -/
theorem claim_C10 (weight_code valid : Nat) (hv : valid ≤ 1) :
    uio_val valid weight_code = 4 * valid + weight_code % 4 ∧
    uio_val valid weight_code = uio_val valid (weight_code % 4) ∧
    uio_val valid weight_code < 8 ∧
    (uio_val valid weight_code).testBit 3 = false := by
  have h1 := uio_val_eq valid weight_code hv
  have h2 := uio_val_eq valid (weight_code % 4) hv
  have hlt : uio_val valid weight_code < 8 := by rw [h1]; omega
  have h3 : uio_val valid weight_code < 2 ^ 3 := by
    have hp : (2 : Nat) ^ 3 = 8 := by norm_num
    omega
  exact ⟨h1, by rw [h1, h2]; omega, hlt, Nat.testBit_eq_false_of_lt h3⟩

/-- Witness for claim C10 at weight code 6 (outside {0,1,2,3}) with
valid asserted. -/
theorem claim_C10_witness :
    uio_val 1 6 = 4 * 1 + 6 % 4 ∧ uio_val 1 6 = uio_val 1 (6 % 4) ∧
    uio_val 1 6 < 8 ∧ (uio_val 1 6).testBit 3 = false :=
  claim_C10 6 1 (by decide)
